import Mathlib

/-!
Shallow embedding of the Signum front-end logic.

Embedded source files:
* `src/frontend/src/pages/RunsPage.vue` — the `filtered` computed value
  (row filter over the runs table).
* `src/unnamed/part_000`, Preview page — the `renderedMd` computed value
  (regex-chain Markdown renderer) and the `onMounted` mermaid hook.
* `src/unnamed/part_000`, Home page — the JSON editor validity boundary.

Strings are modelled as their `List Char` contents (`String.data`); the only
line terminator modelled is `'\x0a'` (the sources and the spec use only plain
newlines), and JavaScript `toLowerCase` is modelled by `Char.toLower` on each
character.
-/

/-! ### Markdown renderer (Preview page, `renderedMd`)

The source is a chain of four JavaScript `String.replace` calls:

  .replace of the regex ^### (.*$) with flags gim by an h3 wrapper
  .replace of the regex ^## (.*$)  with flags gim by an h2 wrapper
  .replace of the regex ^# (.*$)   with flags gim by an h1 wrapper
  .replace of the regex \n$        with flags gim by a br tag

With the `m` flag, `^` matches at the start of every line and `$` at the end
of every line, and `.` never matches a newline, so each heading pass rewrites
exactly the lines that start with its marker (`"### "`, `"## "`, `"# "`).
In the last pass, `\n$` under the `m` flag matches every newline character
that is immediately followed by another newline or by the end of the string
(the `$` assertion is zero-width).
-/

/-- One heading pass on a single line: if the line starts with `marker`, wrap
the rest of the line in the `pre`/`post` tags, else leave the line alone.
This is the per-line effect of the regex `^marker(.*$)` with flags `gim`. -/
def headingLine (marker pre post : List Char) (line : List Char) : List Char :=
  if marker.isPrefixOf line then pre ++ line.drop marker.length ++ post else line

/-- One global heading substitution over the whole text: split into lines,
rewrite each line, and rejoin with newlines. -/
def headingPass (marker pre post : List Char) (s : List Char) : List Char :=
  List.intercalate ['\n'] ((s.splitOn '\n').map (headingLine marker pre post))

/-- The replacement text of the line-break rule, the br tag. -/
def brTag : List Char := "<br/>".data

/-- Whether the regex `\n$` (flag `m`) matches at a character `c` whose
remaining input is `rest`: `c` must be a newline and the zero-width `$` must
hold just after it, i.e. `rest` is empty or starts with another newline. -/
def brHere (c : Char) (rest : List Char) : Bool :=
  c == '\n' && (rest.isEmpty || rest.head? == some '\n')

/-- The global substitution `.replace` of `\n$` (flags `gim`) by the br tag:
every newline immediately followed by another newline or by the end of the
string is replaced by `brTag`. -/
def replaceNlEnd : List Char → List Char
  | [] => []
  | c :: rest => (if brHere c rest then brTag else [c]) ++ replaceNlEnd rest

/-- The h3 wrapper opening tag of the source. -/
def h3Open : List Char := "<h3 class=\"neon-subtitle\">".data

/-- The h2 wrapper opening tag of the source. -/
def h2Open : List Char := "<h2 class=\"neon-subtitle\">".data

/-- The h1 wrapper opening tag of the source. -/
def h1Open : List Char := "<h1 class=\"neon-title\">".data

/-- The Markdown renderer `renderedMd` of the Preview page: the four
substitutions in source order (h3, then h2, then h1, then the br rule). -/
def renderChars (s : List Char) : List Char :=
  replaceNlEnd
    (headingPass "# ".data h1Open "</h1>".data
      (headingPass "## ".data h2Open "</h2>".data
        (headingPass "### ".data h3Open "</h3>".data s)))

/-- String-level renderer, the spec's `render`. -/
def render (s : String) : String :=
  String.mk (renderChars s.data)

/-- A line is hash-prefixed when it starts with the character `#`. -/
def hashPrefixed (line : List Char) : Bool :=
  List.isPrefixOf ['#'] line

/-- `noHashLines s` holds when no line of `s` is `#`-prefixed. -/
def noHashLines (s : String) : Bool :=
  (s.data.splitOn '\n').all (fun l => !(hashPrefixed l))

/-- `endsWithNewline s` holds when the last character of `s` is a newline. -/
def endsWithNewline (s : String) : Bool :=
  s.data.getLast? == some '\n'

/-- `nlSafe l` holds when no position of `l` triggers the br rule: no newline
of `l` is immediately followed by another newline or by the end of the list
(in particular `l` has no trailing newline). -/
def nlSafe : List Char → Bool
  | [] => true
  | c :: rest => !(brHere c rest) && nlSafe rest

/-! ### Row filter (Runs page, `filtered`)

Source:

  const q = filter.value.toLowerCase()
  return rows.value.filter((r) => JSON.stringify(r).toLowerCase().includes(q))

A row is a flat record with the string fields `id`, `name`, `status`, in that
insertion order, so `JSON.stringify` produces
`\x7b"id":…,"name":…,"status":…\x7d` with JSON string escaping.
-/

/-- One run-table row, the record shape of the Runs page fixture. -/
structure Record where
  id : String
  name : String
  status : String
deriving DecidableEq, Repr

/-- The hexadecimal digit used by `JSON.stringify` for control characters. -/
def hexDigit (n : Nat) : Char :=
  if n < 10 then Char.ofNat (48 + n) else Char.ofNat (87 + n)

/-- JSON escaping of one character, as `JSON.stringify` quotes strings:
quote and backslash get a backslash escape, the named control characters get
their two-character escapes, the remaining control characters get a
`\u00XX` escape, and every other character stands for itself. -/
def jsonEscapeChar (c : Char) : List Char :=
  if c = '"' then ['\\', '"']
  else if c = '\\' then ['\\', '\\']
  else if c = '\x08' then ['\\', 'b']
  else if c = '\t' then ['\\', 't']
  else if c = '\n' then ['\\', 'n']
  else if c = '\x0c' then ['\\', 'f']
  else if c = '\x0d' then ['\\', 'r']
  else if c.toNat < 32 then
    ['\\', 'u', '0', '0', hexDigit (c.toNat / 16), hexDigit (c.toNat % 16)]
  else [c]

/-- A JSON string literal: the escaped characters between double quotes. -/
def jsonQuote (s : String) : String :=
  String.mk ('"' :: (s.data.map jsonEscapeChar).flatten ++ ['"'])

/-- `JSON.stringify` on one row: fields serialized in insertion order
`id`, `name`, `status`. -/
def stringifyRecord (r : Record) : String :=
  "\x7b\"id\":" ++ jsonQuote r.id ++ ",\"name\":" ++ jsonQuote r.name
    ++ ",\"status\":" ++ jsonQuote r.status ++ "\x7d"

/-- Model of JavaScript `String.prototype.toLowerCase`: lower-case every
character. -/
def jsToLowerCase (s : String) : String :=
  String.mk (s.data.map Char.toLower)

/-- Model of JavaScript `String.prototype.includes`: scan every position of
the haystack for the needle as a prefix of the remaining suffix. -/
def includes : List Char → List Char → Bool
  | [], needle => needle.isPrefixOf []
  | c :: t, needle => needle.isPrefixOf (c :: t) || includes t needle

/-- The `filtered` computed value of the Runs page: lower-case the query
once, keep the rows whose lower-cased serialization contains it. -/
def filterRuns (rows : List Record) (query : String) : List Record :=
  let q := jsToLowerCase query
  rows.filter (fun r => includes (jsToLowerCase (stringifyRecord r)).data q.data)

/-! ### JSON editor boundary (Home page)

Source:

  const parsed = computed(() => \x7b
    try \x7b return JSON.parse(raw.value) \x7d catch \x7b return null \x7d
  \x7d)
  watch(raw, (val) => \x7b
    try \x7b JSON.parse(val); errorMsg.value = '' \x7d
    catch \x7b errorMsg.value = 'JSON inválido' \x7d
  \x7d)
  const isValid = computed(() => parsed.value !== null)

`JSON.parse` is a platform builtin, not repository code, so it is modelled
abstractly as an arbitrary function `String → Except String JsonVal`; a
thrown exception is an `Except.error` value caught at this boundary.
-/

/-- The JavaScript JSON value space (numbers modelled as integers; the claims
only discriminate `null` from the rest). -/
inductive JsonVal where
  | jnull
  | jbool (b : Bool)
  | jnum (n : Int)
  | jstr (s : String)
  | jarr (elems : List JsonVal)
  | jobj (fields : List (String × JsonVal))

/-- Whether a JSON value is `null`. -/
def JsonVal.isNull : JsonVal → Bool
  | .jnull => true
  | _ => false

/-- The `parsed` computed value: the parse result, or `null` when the parser
throws (the catch branch returns `null`). -/
def parsedOf (parse : String → Except String JsonVal) (raw : String) : JsonVal :=
  match parse raw with
  | .ok v => v
  | .error _ => .jnull

/-- The `isValid` computed value: `parsed !== null`. -/
def isValidOf (parse : String → Except String JsonVal) (raw : String) : Bool :=
  !(parsedOf parse raw).isNull

/-- The `errorMsg` value maintained by the watcher: empty on a successful
parse, the literal message on a caught parse exception. -/
def errorMsgOf (parse : String → Except String JsonVal) (raw : String) : String :=
  match parse raw with
  | .ok _ => ""
  | .error _ => "JSON inválido"

/-! ### Mermaid hook (Preview page, `onMounted`)

Source:

  try \x7b
    const mermaid = window.mermaid
    const code = `classDiagram…`
    if (mermaid && umlEl.value) \x7b
      mermaid.initialize(\x7b startOnLoad: false, theme: 'dark', … \x7d)
      const \x7b svg \x7d = await mermaid.render('uml-svg', code)
      umlEl.value.innerHTML = svg
    \x7d else if (umlEl.value) \x7b
      umlEl.value.innerText = code
    \x7d
  \x7d catch \x7b /* ignored */ \x7d

The collaborator is `window.mermaid`, absent or present; its two methods may
throw, modelled as `Except.error`. The try/catch swallows every exception,
leaving the target element in whatever state it had (initially empty).
-/

/-- The theme variables passed to the collaborator. -/
structure MermaidThemeVars where
  lineColor : String
  primaryTextColor : String

/-- The configuration passed to the collaborator. -/
structure MermaidConfig where
  startOnLoad : Bool
  theme : String
  themeVariables : MermaidThemeVars

/-- The concrete configuration the hook passes. -/
def mermaidConfig : MermaidConfig :=
  ⟨false, "dark", ⟨"#00f0ff", "#e5e7eb"⟩⟩

/-- The diagram-rendering collaborator: `init` models `mermaid.initialize`
(`initialize` is a Lean keyword) and `render` models `mermaid.render`, which
resolves to the svg markup or throws. -/
structure Mermaid where
  init : MermaidConfig → Except String Unit
  render : String → String → Except String String

/-- The diagram source text hard-coded in the hook. -/
def umlCode : String := "classDiagram\nA <|-- B\nA : +foo()\nB : +bar()"

/-- The observable final state of the uml element. -/
inductive UmlView where
  | rendered (svg : String)
  | sourceText (code : String)
  | empty
deriving DecidableEq, Repr

/-- The body of the hook before the surrounding try/catch: render through the
collaborator when it is present (propagating any exception), fall back to the
source text when it is absent, do nothing when the element is missing. -/
def mountUmlBody (collab : Option Mermaid) (elPresent : Bool) (code : String) :
    Except String UmlView :=
  match collab, elPresent with
  | some m, true => do
      let _ ← m.init mermaidConfig
      let svg ← m.render "uml-svg" code
      pure (.rendered svg)
  | none, true => pure (.sourceText code)
  | _, false => pure .empty

/-- The hook with its try/catch: an exception is swallowed and the element is
left untouched (empty). -/
def mountUml (collab : Option Mermaid) (elPresent : Bool) (code : String) :
    UmlView :=
  match mountUmlBody collab elPresent code with
  | .ok v => v
  | .error _ => .empty

/-- A parser behaviour that always throws, used to witness the boundary
theorem. -/
def parseAlwaysFails : String → Except String JsonVal :=
  fun _ => Except.error "boom"

/-- A collaborator whose initialization succeeds and whose rendering throws,
matching the failure mode C8 is about. -/
def mermaidThrowing : Mermaid :=
  ⟨fun _ => Except.ok (), fun _ _ => Except.error "render failed"⟩

/-! ### Helper lemmas -/

/-- `includes` agrees with list-infix containment. -/
theorem includes_iff_substring (hay needle : List Char) :
    includes hay needle = true ↔ needle <:+: hay := by
  induction hay with
  | nil =>
      simp [includes, List.isPrefixOf_iff_prefix, List.prefix_nil, List.infix_nil]
  | cons c t ih =>
      simp [includes, List.isPrefixOf_iff_prefix, ih, List.infix_cons_iff]

/-- A marker starting with a hash is no prefix of a line that is not
hash-prefixed. -/
theorem hash_marker_not_prefix (line : List Char) (h : hashPrefixed line = false)
    (rest : List Char) : List.isPrefixOf ('#' :: rest) line = false := by
  cases line with
  | nil => rfl
  | cons c t =>
      have h2 : ('#' == c) = false := by
        simpa [hashPrefixed, List.isPrefixOf] using h
      simp [List.isPrefixOf, h2]

/-- A heading pass whose marker matches no line of the input leaves the input
unchanged. -/
theorem headingPass_eq_self (marker pre post : List Char) (s : List Char)
    (h : ∀ l ∈ s.splitOn '\n', marker.isPrefixOf l = false) :
    headingPass marker pre post s = s := by
  unfold headingPass
  have hmap : (s.splitOn '\n').map (headingLine marker pre post)
      = (s.splitOn '\n').map id := by
    apply List.map_congr_left
    intro l hl
    simp [headingLine, h l hl]
  rw [hmap, List.map_id]
  exact List.intercalate_splitOn s '\n'

/-- The br substitution leaves an `nlSafe` input unchanged. -/
theorem replaceNlEnd_eq_self (l : List Char) (h : nlSafe l = true) :
    replaceNlEnd l = l := by
  induction l with
  | nil => rfl
  | cons c rest ih =>
      simp only [nlSafe, Bool.and_eq_true, Bool.not_eq_true'] at h
      simp [replaceNlEnd, h.1, ih h.2]

/-! ### Claim theorems -/

/-- C1: for every record sequence and query, `filterRuns` keeps exactly the
records of the input whose serialized textual representation, case-folded,
contains the case-folded query as a contiguous substring: a record is in the
output iff it is in the input and matches. -/
theorem filterRuns_mem_iff (rows : List Record) (query : String) (r : Record) :
    r ∈ filterRuns rows query ↔
      r ∈ rows ∧
        (jsToLowerCase query).data <:+: (jsToLowerCase (stringifyRecord r)).data := by
  simp [filterRuns, List.mem_filter, includes_iff_substring]

/-- C4: filtering with the empty query is the identity on the record list,
same records in the same order. -/
theorem filterRuns_empty_query (rows : List Record) : filterRuns rows "" = rows := by
  simp only [filterRuns]
  rw [List.filter_eq_self]
  intro r _
  rw [includes_iff_substring]
  rw [show (jsToLowerCase "").data = ([] : List Char) from rfl]
  exact List.nil_infix

/-- C5: the filter output is a sublist of the input: relative order is
preserved and no record is added, duplicated, or mutated. -/
theorem filterRuns_sublist (rows : List Record) (query : String) :
    List.Sublist (filterRuns rows query) rows := by
  simp only [filterRuns]
  exact List.filter_sublist rows

/-- C6: the filter is idempotent on its own output. -/
theorem filterRuns_idem (rows : List Record) (query : String) :
    filterRuns (filterRuns rows query) query = filterRuns rows query := by
  simp only [filterRuns]
  rw [List.filter_filter]
  simp only [Bool.and_self]

/-- C3: the renderer applies the heading substitutions longest marker first,
so the three-line input with level-3, level-2 and level-1 markers produces
three headings of levels 3, 2 and 1, each preserving its own text with no
hash markers leaking into an adjacent heading. -/
theorem render_heading_order :
    render "### Sub\n## Mid\n# Top"
      = "<h3 class=\"neon-subtitle\">Sub</h3>\n<h2 class=\"neon-subtitle\">Mid</h2>\n<h1 class=\"neon-title\">Top</h1>" := by
  decide

/-- C2 counterexample: the input between the quotes of `"a\n\nb"` contains no
hash-prefixed line and has no trailing newline, yet the renderer does not
return it unchanged — the br rule fires on the mid-string newline that
precedes another newline. -/
theorem render_midstring_counterexample :
    noHashLines "a\n\nb" = true ∧ endsWithNewline "a\n\nb" = false ∧
      render "a\n\nb" = "a<br/>\nb" ∧ render "a\n\nb" ≠ "a\n\nb" := by
  decide

/-- C2 (amended): the br substitution fires on every newline immediately
followed by another newline or by the end of the string; consequently, for
every input with no hash-prefixed lines and no newline followed by another
newline or by the end of the string (`nlSafe`), the renderer is the
identity. -/
theorem render_id_of_no_hash_nlSafe (s : String)
    (hhash : noHashLines s = true) (hnl : nlSafe s.data = true) :
    render s = s := by
  have hlines : ∀ l ∈ s.data.splitOn '\n', hashPrefixed l = false := by
    have h := List.all_eq_true.mp hhash
    intro l hl
    have h2 := h l hl
    simpa using h2
  have hmarker : ∀ rest : List Char, ∀ l ∈ s.data.splitOn '\n',
      List.isPrefixOf ('#' :: rest) l = false := by
    intro rest l hl
    exact hash_marker_not_prefix l (hlines l hl) rest
  have e3 : headingPass "### ".data h3Open "</h3>".data s.data = s.data := by
    apply headingPass_eq_self
    rw [show ("### ".data : List Char) = '#' :: '#' :: '#' :: ' ' :: [] from rfl]
    exact hmarker ('#' :: '#' :: ' ' :: [])
  have e2 : headingPass "## ".data h2Open "</h2>".data s.data = s.data := by
    apply headingPass_eq_self
    rw [show ("## ".data : List Char) = '#' :: '#' :: ' ' :: [] from rfl]
    exact hmarker ('#' :: ' ' :: [])
  have e1 : headingPass "# ".data h1Open "</h1>".data s.data = s.data := by
    apply headingPass_eq_self
    rw [show ("# ".data : List Char) = '#' :: ' ' :: [] from rfl]
    exact hmarker (' ' :: [])
  show String.mk (renderChars s.data) = s
  rw [renderChars, e3, e2, e1, replaceNlEnd_eq_self s.data hnl]

/-- Witness for the amended C2 theorem at a concrete hash-free, nlSafe
input. -/
theorem render_id_of_no_hash_nlSafe_witness :
    noHashLines "hola\nmundo" = true ∧ nlSafe "hola\nmundo".data = true ∧
      render "hola\nmundo" = "hola\nmundo" :=
  ⟨by decide, by decide,
    render_id_of_no_hash_nlSafe "hola\nmundo" (by decide) (by decide)⟩

/-- C7: a parse failure at the JSON editor boundary is converted into a
false validity flag and the fixed user-facing message, and for every parser
behaviour and every input the boundary yields one of the two literal
messages — the caught failure never escapes as anything but these values. -/
theorem jsonBoundary_catches (parse : String → Except String JsonVal)
    (raw e : String) (h : parse raw = Except.error e) :
    isValidOf parse raw = false ∧ errorMsgOf parse raw = "JSON inválido" ∧
      ∀ (p2 : String → Except String JsonVal) (r2 : String),
        errorMsgOf p2 r2 = "" ∨ errorMsgOf p2 r2 = "JSON inválido" := by
  refine ⟨?_, ?_, ?_⟩
  · simp [isValidOf, parsedOf, h, JsonVal.isNull]
  · simp [errorMsgOf, h]
  · intro p2 r2
    rcases h2 : p2 r2 with e2 | v
    · exact Or.inr (by simp [errorMsgOf, h2])
    · exact Or.inl (by simp [errorMsgOf, h2])

/-- Witness for the C7 theorem at a concrete failing parse. -/
theorem jsonBoundary_catches_witness :
    isValidOf parseAlwaysFails "no json" = false ∧
      errorMsgOf parseAlwaysFails "no json" = "JSON inválido" :=
  ⟨(jsonBoundary_catches parseAlwaysFails "no json" "boom" rfl).1,
    (jsonBoundary_catches parseAlwaysFails "no json" "boom" rfl).2.1⟩

/-- C8 counterexample: with the collaborator present but throwing during
rendering, the hook leaves the display element empty — it does not degrade
to displaying the diagram source text verbatim as the claim states. -/
theorem mountUml_throw_counterexample :
    mountUml (some mermaidThrowing) true umlCode = UmlView.empty ∧
      mountUml (some mermaidThrowing) true umlCode ≠ UmlView.sourceText umlCode := by
  decide

/-- C8 (amended): an absent collaborator degrades to displaying the diagram
source text verbatim, while a collaborator that throws (in initialization or
in rendering) has its failure swallowed by the catch, leaving the display
element empty; in every case the hook returns normally, never propagating
the failure. -/
theorem mountUml_degrades (m : Mermaid) (code err : String)
    (hinit : m.init mermaidConfig = Except.ok ())
    (hthrow : m.render "uml-svg" code = Except.error err) :
    mountUml (some m) true code = UmlView.empty ∧
      mountUml none true code = UmlView.sourceText code ∧
      ∀ (m2 : Mermaid) (e2 : String), m2.init mermaidConfig = Except.error e2 →
        mountUml (some m2) true code = UmlView.empty := by
  refine ⟨?_, rfl, ?_⟩
  · unfold mountUml mountUmlBody
    simp [hinit, hthrow, Bind.bind, Except.bind]
  · intro m2 e2 h2
    unfold mountUml mountUmlBody
    simp [h2, Bind.bind, Except.bind]

/-- Witness for the amended C8 theorem at the concrete hard-coded diagram
source and a concrete throwing collaborator. -/
theorem mountUml_degrades_witness :
    mountUml (some mermaidThrowing) true umlCode = UmlView.empty ∧
      mountUml none true umlCode = UmlView.sourceText umlCode :=
  ⟨(mountUml_degrades mermaidThrowing umlCode "render failed" rfl rfl).1,
    (mountUml_degrades mermaidThrowing umlCode "render failed" rfl rfl).2.1⟩
